import Mathlib

/-!
# Verification of the AGI C core numerical engine

Shallow embedding of the repository's C core (`src/c-core/src/*.c`) in Lean 4.
C `double` values are idealized as real numbers; a C pointer to a buffer of
doubles is modelled as `Option Buf` where `none` is the NULL pointer and a
`Buf` gives the contents of the pointed-to memory at every nonnegative offset.
Each C function that writes through a pointer is embedded as a function that
returns the status code together with the new contents of the written buffer;
offsets the C code does not touch keep their previous contents.
-/

namespace AGI

/-- Contents of a C double buffer, indexed by element offset. -/
def Buf : Type := Nat → ℝ

/-- The `agi_error_t` status enumeration from `include/agi_core.h`. -/
inductive agi_error : Type where
  | AGI_SUCCESS
  | AGI_ERROR_NULL_POINTER
  | AGI_ERROR_INVALID_ARGUMENT
  | AGI_ERROR_MEMORY_ALLOCATION
  | AGI_ERROR_INVALID_OPERATION
  | AGI_ERROR_NOT_IMPLEMENTED
  | AGI_ERROR_SIMD_NOT_SUPPORTED
  | AGI_ERROR_OPENMP_NOT_AVAILABLE
  deriving DecidableEq, Repr

open agi_error

noncomputable section

/-- Embeds `agi_matrix_add` (`matrix_operations.c`, lines 4-11): NULL check on the
three pointers, then `result[i] = a[i] + b[i]` for `i < size`. -/
def agi_matrix_add (a b result : Option Buf) (size : Nat) : agi_error × Option Buf :=
  match a, b, result with
  | some av, some bv, some rv =>
      (AGI_SUCCESS, some fun i => if i < size then av i + bv i else rv i)
  | _, _, _ => (AGI_ERROR_NULL_POINTER, result)

/-- Embeds `agi_matrix_subtract` (`matrix_operations.c`, lines 13-20):
`result[i] = a[i] - b[i]` for `i < size` after the NULL check. -/
def agi_matrix_subtract (a b result : Option Buf) (size : Nat) : agi_error × Option Buf :=
  match a, b, result with
  | some av, some bv, some rv =>
      (AGI_SUCCESS, some fun i => if i < size then av i - bv i else rv i)
  | _, _, _ => (AGI_ERROR_NULL_POINTER, result)

/-- Embeds `agi_matrix_element_multiply` (`matrix_operations.c`, lines 22-29):
`result[i] = a[i] * b[i]` for `i < size` after the NULL check. -/
def agi_matrix_element_multiply (a b result : Option Buf) (size : Nat) :
    agi_error × Option Buf :=
  match a, b, result with
  | some av, some bv, some rv =>
      (AGI_SUCCESS, some fun i => if i < size then av i * bv i else rv i)
  | _, _, _ => (AGI_ERROR_NULL_POINTER, result)

/-- Embeds `agi_matrix_multiply_simd` (`simd_operations.c`, lines 4-7). The body of
the C function is only the NULL check followed by `return AGI_SUCCESS;`: it never
writes through `result`, so the result buffer is returned unchanged. -/
def agi_matrix_multiply_simd (a b result : Option Buf) (m n k : Nat) :
    agi_error × Option Buf :=
  match a, b, result with
  | some _, some _, some _ => (AGI_SUCCESS, result)
  | _, _, _ => (AGI_ERROR_NULL_POINTER, result)

/-- Embeds `agi_vector_dot_product_simd` (`simd_operations.c`, lines 9-17):
returns `0.0` when either pointer is NULL, otherwise the sum of products over
the first `size` elements. -/
def agi_vector_dot_product_simd (a b : Option Buf) (size : Nat) : ℝ :=
  match a, b with
  | some av, some bv => Finset.sum (Finset.range size) fun i => av i * bv i
  | _, _ => 0

/-- The `agi_activation_type_t` enumeration (`include/agi_core.h`): a C enum whose
underlying integer may also carry values outside the seven declared constants, so
the tag is modelled as a natural number with the declared constants `0..6`. -/
def AGI_ACTIVATION_SIGMOID : Nat := 0

/-- `AGI_ACTIVATION_TANH` enum constant. -/
def AGI_ACTIVATION_TANH : Nat := 1

/-- `AGI_ACTIVATION_RELU` enum constant. -/
def AGI_ACTIVATION_RELU : Nat := 2

/-- `AGI_ACTIVATION_LEAKY_RELU` enum constant. -/
def AGI_ACTIVATION_LEAKY_RELU : Nat := 3

/-- `AGI_ACTIVATION_SWISH` enum constant. -/
def AGI_ACTIVATION_SWISH : Nat := 4

/-- `AGI_ACTIVATION_GELU` enum constant. -/
def AGI_ACTIVATION_GELU : Nat := 5

/-- `AGI_ACTIVATION_SOFTMAX` enum constant. -/
def AGI_ACTIVATION_SOFTMAX : Nat := 6

/-- The per-element value written by the `switch` of `agi_apply_activation`
(`activation_functions.c`, lines 8-35). The softmax case writes `exp(input[i])`,
normalized afterwards; the `default` case copies the input through unchanged. -/
def activationValue (activation_type : Nat) (x : ℝ) : ℝ :=
  if activation_type = AGI_ACTIVATION_SIGMOID then 1 / (1 + Real.exp (-x))
  else if activation_type = AGI_ACTIVATION_TANH then Real.tanh x
  else if activation_type = AGI_ACTIVATION_RELU then (if x > 0 then x else 0)
  else if activation_type = AGI_ACTIVATION_LEAKY_RELU then (if x > 0 then x else 0.01 * x)
  else if activation_type = AGI_ACTIVATION_SWISH then x / (1 + Real.exp (-x))
  else if activation_type = AGI_ACTIVATION_GELU then
    0.5 * x * (1 + Real.tanh (Real.sqrt (2 / Real.pi) * (x + 0.044715 * x ^ 3)))
  else if activation_type = AGI_ACTIVATION_SOFTMAX then Real.exp x
  else x

/-- Embeds `agi_apply_activation` (`activation_functions.c`, lines 5-49): NULL check,
one pass writing `activationValue` into `output[i]` for `i < size`, then, for the
softmax tag only, a second pass dividing each written element by their sum. -/
def agi_apply_activation (input output : Option Buf) (size : Nat)
    (activation_type : Nat) : agi_error × Option Buf :=
  match input, output with
  | some inp, some outp =>
      let pass1 : Buf := fun i => if i < size then activationValue activation_type (inp i) else outp i
      if activation_type = AGI_ACTIVATION_SOFTMAX then
        let s : ℝ := Finset.sum (Finset.range size) fun i => pass1 i
        (AGI_SUCCESS, some fun i => if i < size then pass1 i / s else pass1 i)
      else
        (AGI_SUCCESS, some pass1)
  | _, _ => (AGI_ERROR_NULL_POINTER, output)

/-- The per-element value written by the `switch` of `agi_apply_activation_derivative`
(`activation_functions.c`, lines 54-85). There is no softmax case in this switch, so
the softmax tag falls into `default`, which writes the constant `1.0` — it does not
copy the input through. -/
def activationDerivativeValue (activation_type : Nat) (x : ℝ) : ℝ :=
  if activation_type = AGI_ACTIVATION_SIGMOID then
    (1 / (1 + Real.exp (-x))) * (1 - 1 / (1 + Real.exp (-x)))
  else if activation_type = AGI_ACTIVATION_TANH then 1 - Real.tanh x * Real.tanh x
  else if activation_type = AGI_ACTIVATION_RELU then (if x > 0 then 1 else 0)
  else if activation_type = AGI_ACTIVATION_LEAKY_RELU then (if x > 0 then 1 else 0.01)
  else if activation_type = AGI_ACTIVATION_SWISH then
    1 / (1 + Real.exp (-x)) + x * (1 / (1 + Real.exp (-x))) * (1 - 1 / (1 + Real.exp (-x)))
  else if activation_type = AGI_ACTIVATION_GELU then
    0.5 * (1 + Real.tanh (Real.sqrt (2 / Real.pi) * (x + 0.044715 * x ^ 3)))
  else 1

/-- Embeds `agi_apply_activation_derivative` (`activation_functions.c`, lines 51-88):
NULL check, then one pass writing `activationDerivativeValue` into `output[i]`
for `i < size`. -/
def agi_apply_activation_derivative (input output : Option Buf) (size : Nat)
    (activation_type : Nat) : agi_error × Option Buf :=
  match input, output with
  | some inp, some outp =>
      (AGI_SUCCESS,
       some fun i => if i < size then activationDerivativeValue activation_type (inp i) else outp i)
  | _, _ => (AGI_ERROR_NULL_POINTER, output)

end

/-- The counter fields of the global `agi_memory_stats_t` record
(`memory_management.c`, line 18). The derived fragmentation field is computed only
on the snapshot taken by `agi_get_memory_stats` and is not part of the mutable
counter state, so it is omitted here. -/
structure agi_memory_stats_t : Type where
  total_memory : Nat
  used_memory : Nat
  peak_memory : Nat
  allocation_count : Nat
  deallocation_count : Nat
  deriving DecidableEq, Repr

/-- The zero-value of `g_memory_stats` at process start (`memory_management.c`,
line 18: `static agi_memory_stats_t g_memory_stats = {0};`). -/
def agi_initial_stats : agi_memory_stats_t :=
  { total_memory := 0, used_memory := 0, peak_memory := 0,
    allocation_count := 0, deallocation_count := 0 }

/-- Effect of one `agi_aligned_alloc(size, alignment)` call on the counters
(`memory_management.c`, lines 23-35). `ok` models whether the underlying
`aligned_alloc` returned a non-NULL region; on failure the counters are untouched.
On success: `total += size; used += size; allocation_count++`, then
`peak = used` when the new `used` exceeds the prior `peak`. -/
def agi_aligned_alloc_step (ok : Bool) (size : Nat)
    (s : agi_memory_stats_t) : agi_memory_stats_t :=
  if ok then
    let s1 : agi_memory_stats_t :=
      { s with total_memory := s.total_memory + size,
               used_memory := s.used_memory + size,
               allocation_count := s.allocation_count + 1 }
    if s1.peak_memory < s1.used_memory then { s1 with peak_memory := s1.used_memory } else s1
  else s

/-- Effect of one `agi_aligned_free(ptr)` call (`memory_management.c`, lines 40-49).
`ptrIsNull` models `ptr == NULL`: then the call fails with `AGI_ERROR_NULL_POINTER`
and the counters are untouched; otherwise only `deallocation_count` is incremented —
`used_memory` is never decremented (the source comment at lines 43-44 records that
the freed size is not tracked). -/
def agi_aligned_free_step (ptrIsNull : Bool)
    (s : agi_memory_stats_t) : agi_error × agi_memory_stats_t :=
  if ptrIsNull then (agi_error.AGI_ERROR_NULL_POINTER, s)
  else (agi_error.AGI_SUCCESS, { s with deallocation_count := s.deallocation_count + 1 })

/-- One call into the allocator tracker: an allocation (with its success flag and
requested byte size) or a free (with its NULL flag). -/
inductive MemEvent : Type where
  | alloc (ok : Bool) (size : Nat)
  | free (ptrIsNull : Bool)
  deriving DecidableEq, Repr

/-- The counter state after one tracker call. -/
def memStep (s : agi_memory_stats_t) (e : MemEvent) : agi_memory_stats_t :=
  match e with
  | MemEvent.alloc ok size => agi_aligned_alloc_step ok size s
  | MemEvent.free ptrIsNull => (agi_aligned_free_step ptrIsNull s).2

/-- The counter state after a sequence of `agi_aligned_alloc` / `agi_aligned_free`
calls, starting from `s`. -/
def memRun (events : List MemEvent) (s : agi_memory_stats_t) : agi_memory_stats_t :=
  events.foldl memStep s

/-- `agi_neural_config_t` (`include/agi_core.h`). The C field `hidden_layer_sizes`
is a caller-owned pointer to an array of widths; it is modelled as the list of
values actually present in that array, while `hidden_layers_count` stays a
separate field exactly as in the struct (the two need not agree in C). -/
structure agi_neural_config_t : Type where
  input_size : Nat
  hidden_layers_count : Nat
  hidden_layer_sizes : List Nat
  output_size : Nat
  learning_rate : ℝ
  momentum : ℝ
  use_batch_normalization : Bool
  use_dropout : Bool
  dropout_rate : ℝ

/-- `agi_neural_layer_t` (`include/agi_core.h`), restricted to the fields
`agi_create_neural_network` populates (the batch-norm pointers are never
allocated or read by the core and stay NULL). -/
structure agi_neural_layer_t : Type where
  weights : Buf
  biases : Buf
  input_size : Nat
  output_size : Nat
  is_training : Bool

/-- `agi_neural_network_t` (`include/agi_core.h`). The three `*_alloc_size` fields
are not C struct members: they record the element counts passed to `calloc` for
the three scratch buffers (`neural_operations.c`, lines 83-85), i.e. the extent
of the allocated regions, which the C program knows only through the allocator. -/
structure agi_neural_network_t : Type where
  layers : List agi_neural_layer_t
  layer_count : Nat
  config : agi_neural_config_t
  input_buffer : Buf
  output_buffer : Buf
  gradient_buffer : Buf
  input_buffer_alloc_size : Nat
  output_buffer_alloc_size : Nat
  gradient_buffer_alloc_size : Nat
  max_batch_size : Nat

noncomputable section

/-- The `output_size` chosen for layer `i` by `agi_create_neural_network`
(`neural_operations.c`, lines 42-49): layer 0 reads `hidden_layer_sizes[0]`, the
last layer uses `config->output_size`, and every middle layer reads
`hidden_layer_sizes[i]`. Reads of `hidden_layer_sizes` are through `List.get?`,
so an index past the end of the caller's array — undefined behavior in C —
yields `none`. -/
def layerOutputSize (cfg : agi_neural_config_t) (layer_count i : Nat) : Option Nat :=
  if i = 0 then cfg.hidden_layer_sizes.get? 0
  else if i = layer_count - 1 then some cfg.output_size
  else cfg.hidden_layer_sizes.get? i

/-- The layer-building loop of `agi_create_neural_network` (`neural_operations.c`,
lines 40-80), recursing on the number of layers still to build; `i` is the loop
index and `current_size` the running input width. `winit i j` supplies the value
of `((double)rand()/RAND_MAX - 0.5) * 2.0` drawn for weight `j` of layer `i`
(the `rand()` stream is an external input to the computation); the weight stored
is that draw times the Xavier scale `sqrt(2/(fan_in+fan_out))`. Weight and bias
entries beyond the `calloc`-ed extents keep the zero `calloc` wrote. An
out-of-bounds read of `hidden_layer_sizes` aborts the construction with `none`. -/
def buildLayers (cfg : agi_neural_config_t) (winit : Nat → Nat → ℝ)
    (layer_count : Nat) : Nat → Nat → Nat → Option (List agi_neural_layer_t)
  | 0, _, _ => some []
  | remaining + 1, i, current_size =>
      match layerOutputSize cfg layer_count i with
      | none => none
      | some osz =>
          let scale : ℝ := Real.sqrt (2 / ((current_size : ℝ) + (osz : ℝ)))
          let layer : agi_neural_layer_t :=
            { weights := fun j => if j < current_size * osz then winit i j * scale else 0
              biases := fun _ => 0
              input_size := current_size
              output_size := osz
              is_training := true }
          match buildLayers cfg winit layer_count remaining (i + 1) osz with
          | none => none
          | some rest => some (layer :: rest)

/-- Embeds `agi_create_neural_network` (`neural_operations.c`, lines 24-89).
`layer_count = hidden_layers_count + 2`; layers are built by `buildLayers`; the
three scratch buffers are `calloc`-ed with element counts `input_size`,
`output_size` and `output_size` respectively (lines 83-85) and `max_batch_size`
is set to 32. All memory is obtained with `malloc`/`calloc` directly — the
function never calls `agi_aligned_alloc` — and `malloc` failure paths are not
modelled (allocation is taken to succeed). -/
def agi_create_neural_network (config : Option agi_neural_config_t)
    (winit : Nat → Nat → ℝ) : Option agi_neural_network_t :=
  match config with
  | none => none
  | some cfg =>
      let layer_count := cfg.hidden_layers_count + 2
      match buildLayers cfg winit layer_count layer_count 0 cfg.input_size with
      | none => none
      | some ls =>
          some { layers := ls
                 layer_count := layer_count
                 config := cfg
                 input_buffer := fun _ => 0
                 output_buffer := fun _ => 0
                 gradient_buffer := fun _ => 0
                 input_buffer_alloc_size := cfg.input_size
                 output_buffer_alloc_size := cfg.output_size
                 gradient_buffer_alloc_size := cfg.output_size
                 max_batch_size := 32 }

/-- Embeds `agi_destroy_neural_network` (`neural_operations.c`, lines 94-109):
NULL check, then every buffer is released with `free` — never with
`agi_aligned_free` — and the call reports success. -/
def agi_destroy_neural_network (network : Option agi_neural_network_t) : agi_error :=
  match network with
  | none => AGI_ERROR_NULL_POINTER
  | some _ => AGI_SUCCESS

/-- `agi_create_neural_network` threaded with the allocator-tracker counter state.
The source obtains every region with `malloc`/`calloc` (`neural_operations.c`,
lines 27, 32, 59-60, 83-85) and contains no call to `agi_aligned_alloc`, so the
tracker counters pass through unchanged. -/
def agi_create_neural_network_tracked (config : Option agi_neural_config_t)
    (winit : Nat → Nat → ℝ) (s : agi_memory_stats_t) :
    Option agi_neural_network_t × agi_memory_stats_t :=
  (agi_create_neural_network config winit, s)

/-- `agi_destroy_neural_network` threaded with the allocator-tracker counter state.
The source releases every region with `free` (`neural_operations.c`, lines
98-106) and contains no call to `agi_aligned_free`, so the tracker counters pass
through unchanged. -/
def agi_destroy_neural_network_tracked (network : Option agi_neural_network_t)
    (s : agi_memory_stats_t) : agi_error × agi_memory_stats_t :=
  (agi_destroy_neural_network network, s)

/-- One iteration of the layer loop of `agi_forward_pass` (`neural_operations.c`,
lines 144-162, the portable scalar branch; the `AGI_AVX2_SUPPORT` branch is
compile-time gated and not modelled): for `i < output_size`,
`current_output[i] = relu(sum_j weights[i*input_size+j] * current_input[j] + biases[i])`;
other offsets of the output buffer keep their previous contents. -/
def layerForwardWrite (layer : agi_neural_layer_t) (current_input current_output : Buf) : Buf :=
  fun i =>
    if i < layer.output_size then
      let pre : ℝ :=
        (Finset.sum (Finset.range layer.input_size) fun j =>
          layer.weights (i * layer.input_size + j) * current_input j) + layer.biases i
      if pre > 0 then pre else 0
    else current_output i

/-- The layer loop with buffer swapping (`neural_operations.c`, lines 129-168):
each iteration writes the layer's activations into `current_output`, then swaps
the two buffer roles. Returns the pair `(current_input, current_output)` as they
stand after the loop; the final network output is read from the first component. -/
def forwardLayers : List agi_neural_layer_t → Buf × Buf → Buf × Buf
  | [], bufs => bufs
  | layer :: rest, (ci, co) => forwardLayers rest (layerForwardWrite layer ci co, ci)

/-- Embeds `agi_forward_pass` (`neural_operations.c`, lines 114-174). After the
NULL checks, the caller's input is copied into the network's input buffer
(`input_size` elements), the layer loop runs over `network->layers` with the two
scratch buffers, and the first `output_size` elements of the loop's final
`current_input` are copied into the caller's output buffer. Because the loop
swaps the buffer roles once per layer, the physical `input_buffer` /
`output_buffer` contents after the call depend on the parity of the number of
layers. Returns the status, the network with its updated scratch buffers, and
the updated output buffer; `batch_size` is never read. -/
def agi_forward_pass (network : Option agi_neural_network_t) (input output : Option Buf)
    (batch_size : Nat) : agi_error × Option agi_neural_network_t × Option Buf :=
  match network, input, output with
  | some nw, some inp, some outp =>
      let ib0 : Buf := fun i => if i < nw.config.input_size then inp i else nw.input_buffer i
      let p := forwardLayers nw.layers (ib0, nw.output_buffer)
      let even := nw.layers.length % 2 = 0
      let ibAfter : Buf := if even then p.1 else p.2
      let obAfter : Buf := if even then p.2 else p.1
      let outFinal : Buf := fun i => if i < nw.config.output_size then p.1 i else outp i
      (AGI_SUCCESS,
       some { nw with input_buffer := ibAfter, output_buffer := obAfter },
       some outFinal)
  | _, _, _ => (AGI_ERROR_NULL_POINTER, network, output)

/-- Embeds `agi_backward_pass` (`neural_operations.c`, lines 179-197): NULL checks,
then only `gradients[i] = target[i] - input[i]` for `i < config.output_size` (the
placeholder residual — no layer-wise backpropagation). `batch_size` is never read. -/
def agi_backward_pass (network : Option agi_neural_network_t) (input target : Option Buf)
    (gradients : Option Buf) (batch_size : Nat) : agi_error × Option Buf :=
  match network, input, target, gradients with
  | some nw, some inp, some tgt, some g =>
      (AGI_SUCCESS, some fun i => if i < nw.config.output_size then tgt i - inp i else g i)
  | _, _, _, _ => (AGI_ERROR_NULL_POINTER, gradients)

/-- Embeds `agi_train_batch` (`neural_operations.c`, lines 202-227). The source
calls `agi_forward_pass(network, input, network->output_buffer, batch_size)` —
the output argument aliases the network's own output scratch buffer, so the
final `memcpy` of the forward pass lands in `output_buffer` itself (a self-copy
when the layer count is odd). The mean-squared-error loss is then summed over
`config.output_size` from `output_buffer` and divided by `output_size`, and
`agi_backward_pass(network, network->output_buffer, target,
network->gradient_buffer, batch_size)` fills the gradient scratch buffer.
Returns the loss and the network with its updated scratch buffers; returns
`-1.0` when network, input or target is NULL. `batch_size` is never read. -/
def agi_train_batch (network : Option agi_neural_network_t) (input target : Option Buf)
    (batch_size : Nat) : ℝ × Option agi_neural_network_t :=
  match network, input, target with
  | some nw, some inp, some tgt =>
      let ib0 : Buf := fun i => if i < nw.config.input_size then inp i else nw.input_buffer i
      let p := forwardLayers nw.layers (ib0, nw.output_buffer)
      let even := nw.layers.length % 2 = 0
      let ibAfter : Buf := if even then p.1 else p.2
      let obAfter : Buf := if even then p.2 else p.1
      let obFinal : Buf := fun i => if i < nw.config.output_size then p.1 i else obAfter i
      let total_loss : ℝ :=
        (Finset.sum (Finset.range nw.config.output_size) fun i =>
          (tgt i - obFinal i) * (tgt i - obFinal i)) / (nw.config.output_size : ℝ)
      let gbFinal : Buf :=
        fun i => if i < nw.config.output_size then tgt i - obFinal i else nw.gradient_buffer i
      (total_loss,
       some { nw with input_buffer := ibAfter, output_buffer := obFinal,
                      gradient_buffer := gbFinal })
  | _, _, _ => (-1, network)

/-- The config {input=3, hidden=[4], output=2} with `hidden_layer_sizes` holding
exactly the one declared element, as the config invariant requires
(`hidden_layers_count` matches the array length). -/
def cfgThreeFourTwo : agi_neural_config_t :=
  { input_size := 3, hidden_layers_count := 1, hidden_layer_sizes := [4],
    output_size := 2, learning_rate := 0.01, momentum := 0.9,
    use_batch_normalization := false, use_dropout := false, dropout_rate := 0 }

/-- Like `cfgThreeFourTwo`, but the caller's `hidden_layer_sizes` array holds a
second element (value 4) beyond the declared `hidden_layers_count = 1`, so the
source's read of `hidden_layer_sizes[1]` for the middle layer lands on a defined
value and construction completes, with layer shapes (3→4), (4→4), (4→2). -/
def cfgOversizedArray : agi_neural_config_t :=
  { input_size := 3, hidden_layers_count := 1, hidden_layer_sizes := [4, 4],
    output_size := 2, learning_rate := 0.01, momentum := 0.9,
    use_batch_normalization := false, use_dropout := false, dropout_rate := 0 }

/-- A concrete one-layer network (1→1, all-zero weights and biases, zeroed scratch
buffers) used to instantiate universally quantified engine theorems. -/
def nwZero : agi_neural_network_t :=
  { layers := [{ weights := fun _ => 0, biases := fun _ => 0,
                 input_size := 1, output_size := 1, is_training := true }]
    layer_count := 1
    config := { input_size := 1, hidden_layers_count := 0, hidden_layer_sizes := [],
                output_size := 1, learning_rate := 0.01, momentum := 0.9,
                use_batch_normalization := false, use_dropout := false, dropout_rate := 0 }
    input_buffer := fun _ => 0
    output_buffer := fun _ => 0
    gradient_buffer := fun _ => 0
    input_buffer_alloc_size := 1
    output_buffer_alloc_size := 1
    gradient_buffer_alloc_size := 1
    max_batch_size := 32 }

end

/-! ## Theorems -/

/-- One tracker call never decreases `used_memory`. -/
theorem memStep_used_le (s : agi_memory_stats_t) (e : MemEvent) :
    s.used_memory ≤ (memStep s e).used_memory := by
  cases e with
  | alloc ok size =>
      cases ok with
      | false => simp [memStep, agi_aligned_alloc_step]
      | true =>
          simp only [memStep, agi_aligned_alloc_step, if_true]
          split <;> simp
  | free ptrIsNull =>
      cases ptrIsNull <;> simp [memStep, agi_aligned_free_step]

/-- One tracker call preserves `used_memory ≤ peak_memory`. -/
theorem memStep_used_le_peak (s : agi_memory_stats_t) (e : MemEvent)
    (h : s.used_memory ≤ s.peak_memory) :
    (memStep s e).used_memory ≤ (memStep s e).peak_memory := by
  cases e with
  | alloc ok size =>
      cases ok with
      | false => simpa [memStep, agi_aligned_alloc_step] using h
      | true =>
          simp only [memStep, agi_aligned_alloc_step, if_true]
          split
          · simp
          · next hlt => simpa using Nat.le_of_not_lt hlt
  | free ptrIsNull =>
      cases ptrIsNull <;> simpa [memStep, agi_aligned_free_step] using h

/-- Running any call sequence never decreases `used_memory`. -/
theorem memRun_used_le : ∀ (events : List MemEvent) (s : agi_memory_stats_t),
    s.used_memory ≤ (memRun events s).used_memory
  | [], _ => le_rfl
  | e :: rest, s =>
      le_trans (memStep_used_le s e) (memRun_used_le rest (memStep s e))

/-- Running any call sequence preserves `used_memory ≤ peak_memory`. -/
theorem memRun_used_le_peak : ∀ (events : List MemEvent) (s : agi_memory_stats_t),
    s.used_memory ≤ s.peak_memory →
    (memRun events s).used_memory ≤ (memRun events s).peak_memory
  | [], _, h => h
  | e :: rest, s, h =>
      memRun_used_le_peak rest (memStep s e) (memStep_used_le_peak s e h)

/-- C6: across every sequence of `agi_aligned_alloc` / `agi_aligned_free` calls
starting from the zeroed global stats, `used_memory` is monotonically
non-decreasing (free never decrements it) and never exceeds `peak_memory`; each
successful allocation adds `size` to `total_memory` and `used_memory`,
increments `allocation_count`, and sets `peak_memory` to the new `used_memory`
exactly when it exceeds the prior peak (`peak` becomes `max` of the two). -/
theorem C6_tracker_counters_invariant :
    (∀ events : List MemEvent,
        (memRun events agi_initial_stats).used_memory ≤
          (memRun events agi_initial_stats).peak_memory) ∧
    (∀ events more : List MemEvent,
        (memRun events agi_initial_stats).used_memory ≤
          (memRun (events ++ more) agi_initial_stats).used_memory) ∧
    (∀ (s : agi_memory_stats_t) (size : Nat),
        (agi_aligned_alloc_step true size s).total_memory = s.total_memory + size ∧
        (agi_aligned_alloc_step true size s).used_memory = s.used_memory + size ∧
        (agi_aligned_alloc_step true size s).allocation_count = s.allocation_count + 1 ∧
        (agi_aligned_alloc_step true size s).peak_memory =
          max s.peak_memory (s.used_memory + size)) ∧
    (∀ s : agi_memory_stats_t,
        ((agi_aligned_free_step false s).2.used_memory = s.used_memory ∧
         (agi_aligned_free_step false s).2.deallocation_count = s.deallocation_count + 1)) := by
  refine ⟨?_, ?_, ?_, ?_⟩
  · intro events
    exact memRun_used_le_peak events agi_initial_stats le_rfl
  · intro events more
    simp only [memRun, List.foldl_append]
    exact memRun_used_le more (memRun events agi_initial_stats)
  · intro s size
    refine ⟨?_, ?_, ?_, ?_⟩ <;>
      · simp only [agi_aligned_alloc_step, if_true]
        split <;> simp <;> omega
  · intro s
    exact ⟨rfl, rfl⟩

/-- C7: each of `agi_matrix_add`, `agi_matrix_subtract` and
`agi_matrix_element_multiply` returns `AGI_ERROR_NULL_POINTER` exactly when at
least one of its three buffer pointers is NULL; with all three non-NULL it
returns `AGI_SUCCESS` and writes the elementwise sum / difference / product into
all `size` output elements — there is no other failure mode. -/
theorem C7_elementwise_kernels_total :
    ∀ (a b r : Option Buf) (size : Nat),
      ((agi_matrix_add a b r size).1 = agi_error.AGI_ERROR_NULL_POINTER ↔
          a = none ∨ b = none ∨ r = none) ∧
      ((agi_matrix_subtract a b r size).1 = agi_error.AGI_ERROR_NULL_POINTER ↔
          a = none ∨ b = none ∨ r = none) ∧
      ((agi_matrix_element_multiply a b r size).1 = agi_error.AGI_ERROR_NULL_POINTER ↔
          a = none ∨ b = none ∨ r = none) ∧
      ∀ av bv rv : Buf,
        ((agi_matrix_add (some av) (some bv) (some rv) size).1 = agi_error.AGI_SUCCESS ∧
          ∃ out, (agi_matrix_add (some av) (some bv) (some rv) size).2 = some out ∧
            ∀ i, i < size → out i = av i + bv i) ∧
        ((agi_matrix_subtract (some av) (some bv) (some rv) size).1 = agi_error.AGI_SUCCESS ∧
          ∃ out, (agi_matrix_subtract (some av) (some bv) (some rv) size).2 = some out ∧
            ∀ i, i < size → out i = av i - bv i) ∧
        ((agi_matrix_element_multiply (some av) (some bv) (some rv) size).1 =
            agi_error.AGI_SUCCESS ∧
          ∃ out, (agi_matrix_element_multiply (some av) (some bv) (some rv) size).2 = some out ∧
            ∀ i, i < size → out i = av i * bv i) := by
  intro a b r size
  refine ⟨?_, ?_, ?_, ?_⟩
  · cases a <;> cases b <;> cases r <;> simp [agi_matrix_add]
  · cases a <;> cases b <;> cases r <;> simp [agi_matrix_subtract]
  · cases a <;> cases b <;> cases r <;> simp [agi_matrix_element_multiply]
  · intro av bv rv
    refine ⟨⟨rfl, ?_⟩, ⟨rfl, ?_⟩, ⟨rfl, ?_⟩⟩ <;>
      · refine ⟨_, rfl, ?_⟩
        intro i hi
        simp [hi]

/-- C7 witness: instantiating the kernel contract at size 1 with the constant
buffers a = 2, b = 3 and an all-zero result buffer yields a successful
elementwise sum whose element 0 equals 2 + 3. -/
theorem C7_elementwise_kernels_total_witness :
    (0 : Nat) < 1 ∧
    ∃ out, (agi_matrix_add (some fun _ => (2 : ℝ)) (some fun _ => (3 : ℝ))
        (some fun _ => (0 : ℝ)) 1).2 = some out ∧ out 0 = 2 + 3 := by
  have h := (C7_elementwise_kernels_total (some fun _ => (2 : ℝ)) (some fun _ => (3 : ℝ))
      (some fun _ => (0 : ℝ)) 1).2.2.2 (fun _ => 2) (fun _ => 3) (fun _ => 0)
  obtain ⟨out, hout, hpt⟩ := h.1.2
  exact ⟨by decide, out, hout, hpt 0 (by decide)⟩

/-- C1: refuted — `agi_matrix_multiply_simd` is a stub: with non-NULL arguments it
returns `AGI_SUCCESS` but leaves the result buffer entirely unchanged, so for
m = n = k = 1 with A = [2] and B = [3] the result element stays 0 instead of the
product sum 6 required by `result[i,j] = Σ_t A[i,t]·B[t,j]`. -/
theorem C1_matrix_multiply_stub :
    (∀ (av bv rv : Buf) (m n k : Nat),
        agi_matrix_multiply_simd (some av) (some bv) (some rv) m n k =
          (agi_error.AGI_SUCCESS, some rv)) ∧
    ∃ out, (agi_matrix_multiply_simd (some fun _ => (2 : ℝ)) (some fun _ => (3 : ℝ))
        (some fun _ => (0 : ℝ)) 1 1 1).2 = some out ∧
      out 0 ≠ Finset.sum (Finset.range 1)
        (fun t => (fun _ => (2 : ℝ)) t * (fun _ => (3 : ℝ)) t) := by
  refine ⟨fun av bv rv m n k => rfl, _, rfl, ?_⟩
  simp

/-- C10: the `batch_size` argument is never read by `agi_forward_pass`,
`agi_backward_pass` or `agi_train_batch`: any two batch sizes give identical
return values, identical buffer contents and identical network state. -/
theorem C10_batch_size_ignored :
    ∀ (network : Option agi_neural_network_t) (input output target gradients : Option Buf)
      (b1 b2 : Nat),
      agi_forward_pass network input output b1 = agi_forward_pass network input output b2 ∧
      agi_backward_pass network input target gradients b1 =
        agi_backward_pass network input target gradients b2 ∧
      agi_train_batch network input target b1 = agi_train_batch network input target b2 := by
  intro network input output target gradients b1 b2
  exact ⟨rfl, rfl, rfl⟩

/-- C5: refuted — construction and destruction obtain and release every buffer
with plain `malloc`/`calloc`/`free` and never call the Allocator Tracker, so a
successful `agi_create_neural_network` leaves `allocation_count` exactly as it
was: starting from the zeroed stats, creation succeeds yet `allocation_count`
does not strictly increase, and a subsequent destroy leaves
`deallocation_count` at its prior value. -/
theorem C5_construction_bypasses_tracker :
    ((agi_create_neural_network_tracked (some cfgOversizedArray) (fun _ _ => 0)
        agi_initial_stats).1.isSome = true) ∧
    ((agi_create_neural_network_tracked (some cfgOversizedArray) (fun _ _ => 0)
        agi_initial_stats).2 = agi_initial_stats) ∧
    ¬ (agi_initial_stats.allocation_count <
        (agi_create_neural_network_tracked (some cfgOversizedArray) (fun _ _ => 0)
          agi_initial_stats).2.allocation_count) ∧
    (agi_destroy_neural_network_tracked
        (agi_create_neural_network_tracked (some cfgOversizedArray) (fun _ _ => 0)
          agi_initial_stats).1 agi_initial_stats).2.deallocation_count =
      agi_initial_stats.deallocation_count := by
  exact ⟨rfl, rfl, by decide, rfl⟩

/-- C5 amended: the engine's create and destroy operations do not interact with
the Allocator Tracker at all — for every config, weight-initialization stream,
network and tracker state, threading the tracker through
`agi_create_neural_network` and `agi_destroy_neural_network` returns the
counter state unchanged. -/
theorem C5_amended_untracked :
    ∀ (config : Option agi_neural_config_t) (winit : Nat → Nat → ℝ)
      (network : Option agi_neural_network_t) (s : agi_memory_stats_t),
      (agi_create_neural_network_tracked config winit s).2 = s ∧
      (agi_destroy_neural_network_tracked network s).2 = s := by
  intro config winit network s
  exact ⟨rfl, rfl⟩

/-- C4: refuted — with the unrecognized tag 7 and input element 5,
`agi_apply_activation_derivative` writes the constant 1.0 into the output, not
the input value, so the derivative operation does not pass the input through
unchanged. -/
theorem C4_derivative_fallback_not_identity :
    ∃ out, (agi_apply_activation_derivative (some fun _ => (5 : ℝ)) (some fun _ => (0 : ℝ))
        1 7).2 = some out ∧ out 0 = 1 ∧ out 0 ≠ (fun _ => (5 : ℝ)) 0 := by
  refine ⟨_, rfl, ?_, ?_⟩ <;>
    simp [activationDerivativeValue, AGI_ACTIVATION_SIGMOID, AGI_ACTIVATION_TANH,
      AGI_ACTIVATION_RELU, AGI_ACTIVATION_LEAKY_RELU, AGI_ACTIVATION_SWISH,
      AGI_ACTIVATION_GELU]

/-- C4 amended: for every tag outside the recognized activation set (modelled as a
tag above the last enum constant, 6), `agi_apply_activation` passes the input
through unchanged and returns success, while `agi_apply_activation_derivative`
instead writes the constant 1.0 into every element and returns success — neither
fails, but only the forward operation is an identity fallback. -/
theorem C4_amended_unrecognized_tag_fallback :
    ∀ (inp outp : Buf) (size t : Nat), 6 < t →
      ((agi_apply_activation (some inp) (some outp) size t).1 = agi_error.AGI_SUCCESS ∧
        ∃ out, (agi_apply_activation (some inp) (some outp) size t).2 = some out ∧
          ∀ i, i < size → out i = inp i) ∧
      ((agi_apply_activation_derivative (some inp) (some outp) size t).1 =
          agi_error.AGI_SUCCESS ∧
        ∃ dout, (agi_apply_activation_derivative (some inp) (some outp) size t).2 = some dout ∧
          ∀ i, i < size → dout i = 1) := by
  intro inp outp size t ht
  have h0 : ¬ (t = AGI_ACTIVATION_SIGMOID) := by simp [AGI_ACTIVATION_SIGMOID]; omega
  have h1 : ¬ (t = AGI_ACTIVATION_TANH) := by simp [AGI_ACTIVATION_TANH]; omega
  have h2 : ¬ (t = AGI_ACTIVATION_RELU) := by simp [AGI_ACTIVATION_RELU]; omega
  have h3 : ¬ (t = AGI_ACTIVATION_LEAKY_RELU) := by simp [AGI_ACTIVATION_LEAKY_RELU]; omega
  have h4 : ¬ (t = AGI_ACTIVATION_SWISH) := by simp [AGI_ACTIVATION_SWISH]; omega
  have h5 : ¬ (t = AGI_ACTIVATION_GELU) := by simp [AGI_ACTIVATION_GELU]; omega
  have h6 : ¬ (t = AGI_ACTIVATION_SOFTMAX) := by simp [AGI_ACTIVATION_SOFTMAX]; omega
  refine ⟨⟨?_, ?_⟩, ?_, ?_⟩
  · simp [agi_apply_activation, h6]
  · have hres : (agi_apply_activation (some inp) (some outp) size t).2 =
        some (fun i => if i < size then activationValue t (inp i) else outp i) := by
      simp [agi_apply_activation, h6]
    refine ⟨_, hres, ?_⟩
    intro i hi
    simp [hi, activationValue, h0, h1, h2, h3, h4, h5, h6]
  · simp [agi_apply_activation_derivative]
  · refine ⟨_, rfl, ?_⟩
    intro i hi
    simp [hi, activationDerivativeValue, h0, h1, h2, h3, h4, h5]

/-- C4 amended witness: at tag 7 and size 1 with input element 5, the amended
fallback theorem applies (6 < 7) and gives the identity forward output 5 and the
constant derivative output 1. -/
theorem C4_amended_unrecognized_tag_fallback_witness :
    6 < 7 ∧
    (∃ out, (agi_apply_activation (some fun _ => (5 : ℝ)) (some fun _ => (0 : ℝ)) 1 7).2 =
        some out ∧ out 0 = (fun _ => (5 : ℝ)) 0) ∧
    (∃ dout, (agi_apply_activation_derivative (some fun _ => (5 : ℝ)) (some fun _ => (0 : ℝ))
        1 7).2 = some dout ∧ dout 0 = 1) := by
  have h := C4_amended_unrecognized_tag_fallback (fun _ => (5 : ℝ)) (fun _ => (0 : ℝ)) 1 7
    (by decide)
  obtain ⟨⟨_, out, hout, hpt⟩, _, dout, hdout, hdpt⟩ := h
  exact ⟨by decide, ⟨out, hout, hpt 0 (by decide)⟩, ⟨dout, hdout, hdpt 0 (by decide)⟩⟩

/-- C3: the code is wrong — for the config {input=3, hidden=[4], output=2} (array
length exactly `hidden_layers_count = 1` as the invariant requires), the layer
loop's middle iteration (i = 1, with `layer_count = 3` and `layer_count - 1 = 2`)
reads `hidden_layer_sizes[1]`, one element past the end of the caller's array —
undefined behavior in C, modelled as construction failure — so construction does
not produce the claimed chained shapes (3→4), (4→4), (4→2). -/
theorem C3_construction_reads_out_of_bounds :
    layerOutputSize cfgThreeFourTwo 3 1 = none ∧
    agi_create_neural_network (some cfgThreeFourTwo) (fun _ _ => 0) = none := by
  exact ⟨rfl, rfl⟩

/-- C2: the code is wrong — construction allocates the input scratch buffer with
`input_size` elements and the output and gradient scratch buffers with
`output_size` elements, not with the largest width in the pipeline: for the
config with pipeline widths 3, 4, 4, 2 (largest 4, as computed from the built
network's own layers) the three buffers get extents (3, 2, 2) ≠ (4, 4, 4). -/
theorem C2_scratch_buffers_not_max_width :
    Option.map (fun nw => (nw.input_buffer_alloc_size, nw.output_buffer_alloc_size,
        nw.gradient_buffer_alloc_size))
      (agi_create_neural_network (some cfgOversizedArray) fun _ _ => 0) = some (3, 2, 2) ∧
    Option.map (fun nw => nw.layers.foldr (fun l m => max l.output_size m) nw.config.input_size)
      (agi_create_neural_network (some cfgOversizedArray) fun _ _ => 0) = some 4 ∧
    ((3, 2, 2) : Nat × Nat × Nat) ≠ (4, 4, 4) := by
  exact ⟨rfl, rfl, by decide⟩

/-- The value the first softmax pass writes for an in-range element is the
exponential of the input element. -/
theorem activationValue_softmax (x : ℝ) :
    activationValue AGI_ACTIVATION_SOFTMAX x = Real.exp x := by
  simp [activationValue, AGI_ACTIVATION_SIGMOID, AGI_ACTIVATION_TANH, AGI_ACTIVATION_RELU,
    AGI_ACTIVATION_LEAKY_RELU, AGI_ACTIVATION_SWISH, AGI_ACTIVATION_GELU,
    AGI_ACTIVATION_SOFTMAX]

/-- C8: for every non-empty input vector, `agi_apply_activation` with the softmax
tag (exponentials, then a normalizing division over the same buffer) succeeds
and produces an output whose first `size` elements sum to exactly 1. -/
theorem C8_softmax_sums_to_one :
    ∀ (inp outp : Buf) (size : Nat), 0 < size →
      (agi_apply_activation (some inp) (some outp) size AGI_ACTIVATION_SOFTMAX).1 =
        agi_error.AGI_SUCCESS ∧
      ∃ out, (agi_apply_activation (some inp) (some outp) size AGI_ACTIVATION_SOFTMAX).2 =
          some out ∧
        Finset.sum (Finset.range size) (fun i => out i) = 1 := by
  intro inp outp size hsize
  refine ⟨by simp [agi_apply_activation], ?_⟩
  have hres : (agi_apply_activation (some inp) (some outp) size AGI_ACTIVATION_SOFTMAX).2 =
      some (fun i =>
        if i < size then
          (if i < size then activationValue AGI_ACTIVATION_SOFTMAX (inp i) else outp i) /
            Finset.sum (Finset.range size)
              (fun j => if j < size then activationValue AGI_ACTIVATION_SOFTMAX (inp j) else outp j)
        else (if i < size then activationValue AGI_ACTIVATION_SOFTMAX (inp i) else outp i)) := by
    simp [agi_apply_activation]
  refine ⟨_, hres, ?_⟩
  have hmem : ∀ i ∈ Finset.range size,
      (if i < size then activationValue AGI_ACTIVATION_SOFTMAX (inp i) else outp i) =
        Real.exp (inp i) := by
    intro i hi
    rw [if_pos (Finset.mem_range.mp hi), activationValue_softmax]
  have hsum : Finset.sum (Finset.range size)
      (fun i => if i < size then activationValue AGI_ACTIVATION_SOFTMAX (inp i) else outp i) =
      Finset.sum (Finset.range size) (fun i => Real.exp (inp i)) :=
    Finset.sum_congr rfl hmem
  have hpos : 0 < Finset.sum (Finset.range size) (fun i => Real.exp (inp i)) :=
    Finset.sum_pos (fun i _ => Real.exp_pos (inp i))
      ⟨0, Finset.mem_range.mpr hsize⟩
  have hdiv : ∀ i ∈ Finset.range size,
      (if i < size then
          (if i < size then activationValue AGI_ACTIVATION_SOFTMAX (inp i) else outp i) /
            Finset.sum (Finset.range size)
              (fun j => if j < size then activationValue AGI_ACTIVATION_SOFTMAX (inp j) else outp j)
        else (if i < size then activationValue AGI_ACTIVATION_SOFTMAX (inp i) else outp i)) =
        Real.exp (inp i) /
          Finset.sum (Finset.range size) (fun j => Real.exp (inp j)) := by
    intro i hi
    rw [if_pos (Finset.mem_range.mp hi), hmem i hi, hsum]
  rw [Finset.sum_congr rfl hdiv, ← Finset.sum_div, div_self (ne_of_gt hpos)]

/-- C8 witness: at size 1 with input element 0 the softmax theorem applies
(0 < 1) and the output sums to 1. -/
theorem C8_softmax_sums_to_one_witness :
    0 < 1 ∧
    ∃ out, (agi_apply_activation (some fun _ => (0 : ℝ)) (some fun _ => (0 : ℝ)) 1
        AGI_ACTIVATION_SOFTMAX).2 = some out ∧
      Finset.sum (Finset.range 1) (fun i => out i) = 1 := by
  have h := C8_softmax_sums_to_one (fun _ => (0 : ℝ)) (fun _ => (0 : ℝ)) 1 (by decide)
  exact ⟨by decide, h.2⟩

/-- C9: for every built network with positive output width and every input, if
the target vector agrees with the output the forward pass produces on that
input, then `agi_train_batch` returns exactly 0 — the mean-squared-error loss
`(1/output_width)·Σ(target−output)²` of the recomputed forward output against
that target. -/
theorem C9_train_batch_zero_loss :
    ∀ (nw : agi_neural_network_t) (inp tgt fresh fwd : Buf) (b : Nat),
      0 < nw.config.output_size →
      (agi_forward_pass (some nw) (some inp) (some fresh) b).2.2 = some fwd →
      (∀ i, i < nw.config.output_size → tgt i = fwd i) →
      (agi_train_batch (some nw) (some inp) (some tgt) b).1 = 0 := by
  intro nw inp tgt fresh fwd b hpos hfwd htgt
  have h0 : (agi_forward_pass (some nw) (some inp) (some fresh) b).2.2 =
      some (fun i => if i < nw.config.output_size then
        (forwardLayers nw.layers
          (fun j => if j < nw.config.input_size then inp j else nw.input_buffer j,
           nw.output_buffer)).1 i else fresh i) := rfl
  have hF := Option.some.inj (h0.symm.trans hfwd)
  have hp1 : ∀ i, i < nw.config.output_size →
      (forwardLayers nw.layers
        (fun j => if j < nw.config.input_size then inp j else nw.input_buffer j,
         nw.output_buffer)).1 i = tgt i := by
    intro i hi
    rw [htgt i hi, ← hF]
    simp [hi]
  have hloss : (agi_train_batch (some nw) (some inp) (some tgt) b).1 =
      (Finset.sum (Finset.range nw.config.output_size) fun i =>
        (tgt i -
          (if i < nw.config.output_size then
            (forwardLayers nw.layers
              (fun j => if j < nw.config.input_size then inp j else nw.input_buffer j,
               nw.output_buffer)).1 i
           else
            (if nw.layers.length % 2 = 0 then
              (forwardLayers nw.layers
                (fun j => if j < nw.config.input_size then inp j else nw.input_buffer j,
                 nw.output_buffer)).2
             else
              (forwardLayers nw.layers
                (fun j => if j < nw.config.input_size then inp j else nw.input_buffer j,
                 nw.output_buffer)).1) i)) *
        (tgt i -
          (if i < nw.config.output_size then
            (forwardLayers nw.layers
              (fun j => if j < nw.config.input_size then inp j else nw.input_buffer j,
               nw.output_buffer)).1 i
           else
            (if nw.layers.length % 2 = 0 then
              (forwardLayers nw.layers
                (fun j => if j < nw.config.input_size then inp j else nw.input_buffer j,
                 nw.output_buffer)).2
             else
              (forwardLayers nw.layers
                (fun j => if j < nw.config.input_size then inp j else nw.input_buffer j,
                 nw.output_buffer)).1) i))) / (nw.config.output_size : ℝ) := rfl
  rw [hloss]
  have hz : ∀ i ∈ Finset.range nw.config.output_size,
      (tgt i -
        (if i < nw.config.output_size then
          (forwardLayers nw.layers
            (fun j => if j < nw.config.input_size then inp j else nw.input_buffer j,
             nw.output_buffer)).1 i
         else
          (if nw.layers.length % 2 = 0 then
            (forwardLayers nw.layers
              (fun j => if j < nw.config.input_size then inp j else nw.input_buffer j,
               nw.output_buffer)).2
           else
            (forwardLayers nw.layers
              (fun j => if j < nw.config.input_size then inp j else nw.input_buffer j,
               nw.output_buffer)).1) i)) *
      (tgt i -
        (if i < nw.config.output_size then
          (forwardLayers nw.layers
            (fun j => if j < nw.config.input_size then inp j else nw.input_buffer j,
             nw.output_buffer)).1 i
         else
          (if nw.layers.length % 2 = 0 then
            (forwardLayers nw.layers
              (fun j => if j < nw.config.input_size then inp j else nw.input_buffer j,
               nw.output_buffer)).2
           else
            (forwardLayers nw.layers
              (fun j => if j < nw.config.input_size then inp j else nw.input_buffer j,
               nw.output_buffer)).1) i)) = 0 := by
    intro i hi
    have hi2 := Finset.mem_range.mp hi
    rw [if_pos hi2, hp1 i hi2, sub_self, zero_mul]
  rw [Finset.sum_eq_zero hz, zero_div]

/-- C9 witness: for the concrete all-zero one-layer network `nwZero` with
all-zero input, the forward output is identically zero, so training against the
zero target returns loss exactly 0. -/
theorem C9_train_batch_zero_loss_witness :
    0 < nwZero.config.output_size ∧
    (agi_train_batch (some nwZero) (some fun _ => (0 : ℝ)) (some fun _ => (0 : ℝ)) 1).1 = 0 := by
  have hpos : 0 < nwZero.config.output_size := Nat.one_pos
  have hfwd : (agi_forward_pass (some nwZero) (some fun _ => (0 : ℝ))
      (some fun _ => (0 : ℝ)) 1).2.2 =
      some (fun i => if i < nwZero.config.output_size then
        (forwardLayers nwZero.layers
          (fun j => if j < nwZero.config.input_size then (fun _ => (0 : ℝ)) j
            else nwZero.input_buffer j,
           nwZero.output_buffer)).1 i else (fun _ => (0 : ℝ)) i) := rfl
  have htgt : ∀ i, i < nwZero.config.output_size →
      (fun _ => (0 : ℝ)) i =
      (fun i => if i < nwZero.config.output_size then
        (forwardLayers nwZero.layers
          (fun j => if j < nwZero.config.input_size then (fun _ => (0 : ℝ)) j
            else nwZero.input_buffer j,
           nwZero.output_buffer)).1 i else (fun _ => (0 : ℝ)) i) i := by
    intro i hi
    have hi1 : i = 0 := by
      have : nwZero.config.output_size = 1 := rfl
      omega
    subst hi1
    simp [nwZero, forwardLayers, layerForwardWrite]
  exact ⟨hpos, C9_train_batch_zero_loss nwZero (fun _ => 0) (fun _ => 0) (fun _ => 0) _ 1
    hpos hfwd htgt⟩

end AGI
